import Mathlib

/-!
Verification development for the email-generator application (`app.py`).

The file shallowly embeds the pure logic of the source: list-of-character
models of the Python string primitives used by the code (`in`, `split`,
`replace`, `strip`, slicing, `join`), the response parser
`parse_subject_body`, the generation adapter `generate_with_gemini` with its
`fallback_generation`, the document text extractors, `analyze_cv`, the
download link builder `download_txt` (with an executable base64 model), the
email-generation prompt template, and the per-user record store operations
`ensure_user_doc`, `save_email`, `remove_email`.

External effects (the generation service call, the document libraries, the
record store's array primitives) are modelled as explicit input data or as
definitions taken from the specification, each marked in its doc comment.
-/

/-! ## Python string primitives on lists of characters -/

/-- `startsWithL l pat` : does `l` begin with `pat`?  Used to model Python
substring scanning. -/
def startsWithL : List Char → List Char → Bool
  | _, [] => true
  | [], _ :: _ => false
  | c :: cs, p :: ps => c == p && startsWithL cs ps

/-- `containsL l pat` : Python `pat in l` (substring containment). -/
def containsL : List Char → List Char → Bool
  | [], pat => pat.isEmpty
  | c :: cs, pat => startsWithL (c :: cs) pat || containsL cs pat

/-- `splitOnceL pat l` : Python `l.split(pat, 1)` when `pat` occurs in `l`
(returns the parts before and after the first occurrence); `none` when `pat`
does not occur, which in the source surfaces as the failed tuple unpacking
caught by its `except` clause. -/
def splitOnceL (pat : List Char) : List Char → Option (List Char × List Char)
  | [] => none
  | c :: cs =>
    if startsWithL (c :: cs) pat then some ([], (c :: cs).drop pat.length)
    else
      match splitOnceL pat cs with
      | some (pre, post) => some (c :: pre, post)
      | none => none

/-- Fuel-driven worker for `removeAllL`; the fuel is the length of the list,
which bounds the number of scanning steps. -/
def removeAllGo (pat : List Char) : Nat → List Char → List Char
  | 0, l => l
  | _ + 1, [] => []
  | fuel + 1, c :: cs =>
    if startsWithL (c :: cs) pat then removeAllGo pat fuel ((c :: cs).drop pat.length)
    else c :: removeAllGo pat fuel cs

/-- `removeAllL pat l` : Python `l.replace(pat, "")` for a non-empty `pat`
(removes every non-overlapping occurrence, scanning left to right). -/
def removeAllL (pat l : List Char) : List Char :=
  removeAllGo pat l.length l

/-- The whitespace characters stripped by Python `str.strip()` (the ASCII
ones; the source never feeds it other whitespace). -/
def isPySpace (c : Char) : Bool :=
  c == ' ' || c == '\t' || c == '\n' || c == '\r' || c == '\x0b' || c == '\x0c'

/-- `stripL l` : Python `l.strip()` — drop whitespace from both ends. -/
def stripL (l : List Char) : List Char :=
  ((l.dropWhile isPySpace).reverse.dropWhile isPySpace).reverse

/-- `pyStrip s` : Python `s.strip()` at the `String` level. -/
def pyStrip (s : String) : String :=
  String.mk (stripL s.data)

/-- The literal marker `"Subject:"` used by the parser. -/
def subjMarker : List Char := "Subject:".data

/-- The literal marker `"Body:"` used by the parser. -/
def bodyMarker : List Char := "Body:".data

/-! ## Response parser (`parse_subject_body`, app.py lines 127–139) -/

/-- `parse_subject_body text` : the parser of the model output.  Mirrors the
source: if both markers occur, split at the first `"Body:"`, remove the
`"Subject:"` label from the head and strip both candidates; return them when
both are non-empty, otherwise (including the unreachable failed-split branch
that the source catches with `except`) return the fallback pair
`("Generated Email", text.strip())`. -/
def parse_subject_body (text : String) : String × String :=
  if containsL text.data subjMarker && containsL text.data bodyMarker then
    match splitOnceL bodyMarker text.data with
    | some (before_body, after_subject) =>
      if stripL (removeAllL subjMarker before_body) ≠ [] ∧ stripL after_subject ≠ [] then
        (String.mk (stripL (removeAllL subjMarker before_body)),
         String.mk (stripL after_subject))
      else ("Generated Email", pyStrip text)
    | none => ("Generated Email", pyStrip text)
  else ("Generated Email", pyStrip text)

example : parse_subject_body "Subject: Hi\nBody: Hello there" = ("Hi", "Hello there") := by
  decide

example : parse_subject_body "Body: first Subject: second" =
    ("Generated Email", "Body: first Subject: second") := by
  decide

example : parse_subject_body "no markers at all " = ("Generated Email", "no markers at all") := by
  decide

example : parse_subject_body " " = ("Generated Email", "") := by
  decide

/-- The fallback subject literal is a non-empty string. -/
theorem genEmail_ne_empty : ("Generated Email" : String) ≠ "" := by
  decide

/-- A string built from a non-empty character list is not the empty string. -/
theorem mk_ne_empty {l : List Char} (h : l ≠ []) : String.mk l ≠ "" := by
  intro hc
  exact h (by simpa using congrArg String.data hc)

/-- C1: if `raw` is non-empty and lacks the marker `"Subject:"` or the marker
`"Body:"`, then `parse_subject_body raw` is exactly the fallback pair
`("Generated Email", raw.strip())`; the function is total by construction, so
it always returns a pair of strings without raising. -/
theorem parse_subject_body_fallback (raw : String) (_hne : raw ≠ "")
    (h : containsL raw.data subjMarker = false ∨ containsL raw.data bodyMarker = false) :
    parse_subject_body raw = ("Generated Email", pyStrip raw) := by
  unfold parse_subject_body
  rcases h with h | h <;> simp [h]

/-- Witness for C1 at the concrete input `"hello"`. -/
theorem parse_subject_body_fallback_witness :
    parse_subject_body "hello" = ("Generated Email", "hello") :=
  (parse_subject_body_fallback "hello" (by decide) (Or.inl (by decide))).trans (by decide)

/-- C2: when `raw` contains both markers, the parser splits at the first
occurrence of `"Body:"`, removes the `"Subject:"` label from the head and
strips both candidates, returning them when both are non-empty; in
particular the happy path gives `("Hi", "Hello there")`, and the
ambiguous-order input `"Body: first Subject: second"` follows the same
first-occurrence split (the head before `"Body:"` is empty, so the stripped
subject candidate is empty and the fallback pair results). -/
theorem parse_subject_body_split :
    (∀ (raw : String) (before_body after_subject : List Char),
      containsL raw.data subjMarker = true →
      containsL raw.data bodyMarker = true →
      splitOnceL bodyMarker raw.data = some (before_body, after_subject) →
      stripL (removeAllL subjMarker before_body) ≠ [] →
      stripL after_subject ≠ [] →
      parse_subject_body raw =
        (String.mk (stripL (removeAllL subjMarker before_body)),
         String.mk (stripL after_subject)))
    ∧ parse_subject_body "Subject: Hi\nBody: Hello there" = ("Hi", "Hello there")
    ∧ parse_subject_body "Body: first Subject: second" =
        ("Generated Email", "Body: first Subject: second") := by
  refine ⟨?_, by decide, by decide⟩
  intro raw before_body after_subject h1 h2 hsplit hs hb
  simp [parse_subject_body, h1, h2, hsplit, hs, hb]

/-- Witness for C2: the general split rule applied at a concrete input. -/
theorem parse_subject_body_split_witness :
    parse_subject_body "Subject: Ok\nBody: Fine" = ("Ok", "Fine") :=
  (parse_subject_body_split.1 "Subject: Ok\nBody: Fine" "Subject: Ok\n".data " Fine".data
    (by decide) (by decide) (by decide) (by decide) (by decide)).trans (by decide)

/-- C3 counterexample: the whitespace-only string `" "` is non-empty, yet the
parser returns an empty body for it, so the claim that every non-empty input
yields two non-empty strings fails. -/
theorem parse_subject_body_total_cex :
    (" " : String) ≠ "" ∧ parse_subject_body " " = ("Generated Email", "") := by
  decide

/-- C3 amended: for every `raw` whose stripped form is non-empty (rather than
every non-empty `raw`), `parse_subject_body raw` returns two non-empty
strings — the subject via the fallback literal `"Generated Email"` when
needed, the body via the stripped raw text as fallback. -/
theorem parse_subject_body_total_amended (raw : String) (h : pyStrip raw ≠ "") :
    (parse_subject_body raw).1 ≠ "" ∧ (parse_subject_body raw).2 ≠ "" := by
  unfold parse_subject_body
  split
  · split
    · split
      · rename_i hcond
        exact ⟨mk_ne_empty hcond.1, mk_ne_empty hcond.2⟩
      · exact ⟨genEmail_ne_empty, h⟩
    · exact ⟨genEmail_ne_empty, h⟩
  · exact ⟨genEmail_ne_empty, h⟩

/-- Witness for C3's amended statement at the concrete input `"hello"`. -/
theorem parse_subject_body_total_amended_witness :
    (parse_subject_body "hello").1 ≠ "" ∧ (parse_subject_body "hello").2 ≠ "" :=
  parse_subject_body_total_amended "hello" (by decide)

/-! ## Substring containment lemmas -/

/-- The empty pattern is contained in every list. -/
theorem containsL_nil_pat (l : List Char) : containsL l [] = true := by
  cases l <;> simp [containsL, startsWithL]

/-- A list begins with any of its own leading segments. -/
theorem startsWithL_append (p y : List Char) : startsWithL (p ++ y) p = true := by
  induction p with
  | nil => cases y <;> simp [startsWithL]
  | cons c ps ih => simp [startsWithL, ih]

/-- A pattern standing at the front of a list is contained in it. -/
theorem containsL_here (p y : List Char) : containsL (p ++ y) p = true := by
  cases p with
  | nil => exact containsL_nil_pat y
  | cons c ps =>
    simp only [containsL, Bool.or_eq_true]
    exact Or.inl (startsWithL_append (c :: ps) y)

/-- Containment is preserved by prepending arbitrary characters. -/
theorem containsL_skipAll (x l p : List Char) (h : containsL l p = true) :
    containsL (x ++ l) p = true := by
  induction x with
  | nil => exact h
  | cons c xs ih => simp [containsL, ih]

/-- Two strings with the same character data are equal. -/
theorem str_ext {s t : String} (h : s.data = t.data) : s = t := by
  cases s
  cases t
  exact congrArg String.mk h

/-- A pattern spliced between two strings is contained in the
concatenation. -/
theorem containsS_mid (x p y : String) : containsL (x ++ p ++ y).data p.data = true := by
  have h : (x ++ p ++ y).data = x.data ++ (p.data ++ y.data) := by
    simp [String.data_append]
  rw [h]
  exact containsL_skipAll _ _ _ (containsL_here _ _)

/-- Appending two strings concatenates to a non-empty string whenever the
first part is non-empty. -/
theorem append_ne_empty_left (s t : String) (h : s.data ≠ []) : s ++ t ≠ "" := by
  intro hc
  have h2 : s.data ++ t.data = ([] : List Char) := congrArg String.data hc
  exact h (List.append_eq_nil.mp h2).1

/-! ## Generation adapter (`fallback_generation`, `generate_with_gemini`,
app.py lines 71–84) -/

/-- One call to the external generation service, as observed by the adapter:
either a response whose `text` field is a string or `None`, or a raised
exception carrying its message. -/
inductive GeminiOutcome where
  | ok (text : Option String)
  | raised (msg : String)

/-- `fallback_generation prompt` : the deterministic fallback string of the
source. -/
def fallback_generation (prompt : String) : String :=
  "(Fallback response)\n\nCould not connect to Gemini. Prompt was:\n" ++ prompt

/-- `generate_with_gemini prompt outcome` : the adapter around the service
call.  A response with falsy text (Python `response.text or ...`) becomes the
empty-response sentinel; a raised exception is caught and turned into the
fallback string over the prompt extended with a note naming the error. -/
def generate_with_gemini (prompt : String) (outcome : GeminiOutcome) : String :=
  match outcome with
  | .ok (some s) => if s = "" then "(⚠ Empty response from Gemini)" else s
  | .ok none => "(⚠ Empty response from Gemini)"
  | .raised e =>
    fallback_generation (prompt ++ "\n\n(Note: Fallback used due to: " ++ e ++ ")")

/-- C4: when the service call raises, the adapter does not propagate the
exception (it is a total function of the outcome) and returns a non-empty
string containing the marker `"Fallback response"` and the original prompt
text verbatim. -/
theorem generate_with_gemini_fallback (prompt e : String) :
    containsL (generate_with_gemini prompt (GeminiOutcome.raised e)).data
      "Fallback response".data = true ∧
    containsL (generate_with_gemini prompt (GeminiOutcome.raised e)).data
      prompt.data = true ∧
    generate_with_gemini prompt (GeminiOutcome.raised e) ≠ "" := by
  refine ⟨?_, ?_, ?_⟩
  · have hr : generate_with_gemini prompt (GeminiOutcome.raised e) =
        "(" ++ "Fallback response" ++
          (")\n\nCould not connect to Gemini. Prompt was:\n" ++
            (prompt ++ "\n\n(Note: Fallback used due to: " ++ e ++ ")")) := by
      apply str_ext
      simp [generate_with_gemini, fallback_generation, String.data_append]
    rw [hr]
    exact containsS_mid _ _ _
  · have hr : generate_with_gemini prompt (GeminiOutcome.raised e) =
        "(Fallback response)\n\nCould not connect to Gemini. Prompt was:\n" ++ prompt ++
          ("\n\n(Note: Fallback used due to: " ++ e ++ ")") := by
      apply str_ext
      simp [generate_with_gemini, fallback_generation, String.data_append]
    rw [hr]
    exact containsS_mid _ _ _
  · exact append_ne_empty_left _ _ (by decide)

/-! ## Document text extractors (app.py lines 87–118) -/

/-- Outcome of `page.extract_text()` on one page of an opened document:
either a string (possibly empty, which the source skips) or a raised
exception. -/
inductive PageResult where
  | text (t : String)
  | raised

/-- What `PyPDF2.PdfReader` yields for an input: an unreadable stream (the
constructor raises) or a sequence of pages with their extraction outcomes. -/
inductive PdfDoc where
  | unreadable
  | pages (ps : List PageResult)

/-- The per-page body of the source's loop: keep the extracted text when the
call succeeds with truthy text, otherwise contribute nothing. -/
def pageText : PageResult → Option String
  | .text t => if t = "" then none else some t
  | .raised => none

/-- `extract_text_from_pdf` : empty string when the document cannot be
opened; otherwise the successfully extracted page texts joined with single
spaces. -/
def extract_text_from_pdf : PdfDoc → String
  | .unreadable => ""
  | .pages ps => String.intercalate " " (ps.filterMap pageText)

/-- What `docx.Document` yields: an unreadable stream or the texts of the
document's paragraphs. -/
inductive DocxDoc where
  | unreadable
  | paragraphs (ps : List String)

/-- `extract_text_from_docx` : empty string when the document cannot be
opened; otherwise all paragraph texts joined with single spaces. -/
def extract_text_from_docx : DocxDoc → String
  | .unreadable => ""
  | .paragraphs ps => String.intercalate " " ps

/-- Mapping pages of non-empty texts through the loop body keeps every
text. -/
theorem filterMap_pageText_map (ts : List String) (h : ∀ t ∈ ts, t ≠ "") :
    (ts.map PageResult.text).filterMap pageText = ts := by
  induction ts with
  | nil => rfl
  | cons t ts ih =>
    simp only [List.map_cons, List.filterMap_cons, pageText]
    rw [if_neg (h t (by simp))]
    simp [ih (fun x hx => h x (by simp [hx]))]

/-- C7: extraction never raises — an unreadable document of either type
yields the empty string; a page whose extraction fails is skipped without
aborting the document; and the successfully extracted page texts are joined
with single spaces. -/
theorem extraction_graceful :
    extract_text_from_pdf PdfDoc.unreadable = "" ∧
    extract_text_from_docx DocxDoc.unreadable = "" ∧
    (∀ xs ys : List PageResult,
      extract_text_from_pdf (PdfDoc.pages (xs ++ PageResult.raised :: ys)) =
        extract_text_from_pdf (PdfDoc.pages (xs ++ ys))) ∧
    (∀ ts : List String, (∀ t ∈ ts, t ≠ "") →
      extract_text_from_pdf (PdfDoc.pages (ts.map PageResult.text)) =
        String.intercalate " " ts) := by
  refine ⟨rfl, rfl, ?_, ?_⟩
  · intro xs ys
    simp [extract_text_from_pdf, List.filterMap_append, List.filterMap_cons, pageText]
  · intro ts hts
    simp [extract_text_from_pdf, filterMap_pageText_map ts hts]

/-- Witness for C7: a concrete failing page is skipped, and concrete page
texts are joined with a space. -/
theorem extraction_graceful_witness :
    extract_text_from_pdf
        (PdfDoc.pages [PageResult.text "a", PageResult.raised, PageResult.text "b"]) =
      extract_text_from_pdf (PdfDoc.pages [PageResult.text "a", PageResult.text "b"]) ∧
    extract_text_from_pdf (PdfDoc.pages (["a", "b"].map PageResult.text)) =
      String.intercalate " " ["a", "b"] :=
  ⟨extraction_graceful.2.2.1 [PageResult.text "a"] [PageResult.text "b"],
   extraction_graceful.2.2.2 ["a", "b"] (by decide)⟩

/-- An uploaded file as the two extractors can attempt to read it: the
outcome of opening it as a PDF and the outcome of opening it as a DOCX. -/
structure CvFile where
  asPdf : PdfDoc
  asDocx : DocxDoc

/-- `analyze_cv file file_type` : dispatch on the declared type string,
returning the empty string for any type outside `pdf`/`doc`/`docx`. -/
def analyze_cv (file : CvFile) (file_type : String) : String :=
  if file_type = "pdf" then extract_text_from_pdf file.asPdf
  else if file_type ∈ (["doc", "docx"] : List String) then extract_text_from_docx file.asDocx
  else ""

/-- C10: for every file and every declared type outside
`{"pdf", "doc", "docx"}`, `analyze_cv` returns the empty string without
attempting any extraction. -/
theorem analyze_cv_unknown (file : CvFile) (ft : String)
    (h : ft ∉ (["pdf", "doc", "docx"] : List String)) :
    analyze_cv file ft = "" := by
  have h1 : ft ≠ "pdf" := fun hc => h (by simp [hc])
  have h2 : ft ∉ (["doc", "docx"] : List String) :=
    fun hc => h (List.mem_cons_of_mem _ hc)
  simp [analyze_cv, h1, h2]

/-- Witness for C10 at the concrete declared type `"txt"`. -/
theorem analyze_cv_unknown_witness :
    analyze_cv ⟨PdfDoc.unreadable, DocxDoc.unreadable⟩ "txt" = "" :=
  analyze_cv_unknown ⟨PdfDoc.unreadable, DocxDoc.unreadable⟩ "txt" (by decide)

/-! ## User record store (`ensure_user_doc`, `save_email`, `remove_email`,
app.py lines 142–167) -/

/-- A stored generation result: `{subject, body}`.  Structural equality is
field-by-field equality. -/
structure GeneratedEmail where
  subject : String
  body : String
deriving DecidableEq

/-- The record store: one document per user key, each holding its `emails`
sequence.  An association list keyed by the user email string. -/
abbrev Store := List (String × List GeneratedEmail)

/-- Fetch a user's document, `none` when absent. -/
def getDoc : Store → String → Option (List GeneratedEmail)
  | [], _ => none
  | (k, v) :: rest, u => if k = u then some v else getDoc rest u

/-- Write a user's document (replacing it, or creating it at the end). -/
def setDoc : Store → String → List GeneratedEmail → Store
  | [], u, v => [(u, v)]
  | (k, w) :: rest, u, v =>
    if k = u then (u, v) :: rest else (k, w) :: setDoc rest u v

/-- The defensive read path: the current `emails` sequence, or the empty
sequence when the document is absent. -/
def getEmails (s : Store) (u : String) : List GeneratedEmail :=
  (getDoc s u).getD []

/-- `ensure_user_doc` : create the document with an empty `emails` sequence
when it does not exist. -/
def ensure_user_doc (s : Store) (u : String) : Store :=
  match getDoc s u with
  | some _ => s
  | none => setDoc s u []

/-- Modelled from the spec: the record store's atomic array-union update used
by `save_email` (`ArrayUnion` of the external store, whose implementation is
not part of this repository) — if an element structurally equal to `e`
already exists in the sequence, the sequence is unchanged; otherwise `e` is
appended at the end. -/
def arrayUnionOne (emails : List GeneratedEmail) (e : GeneratedEmail) : List GeneratedEmail :=
  if e ∈ emails then emails else emails ++ [e]

/-- Modelled from the spec: the record store's atomic array-removal update
used by `remove_email` (`ArrayRemove` of the external store) — remove every
element structurally equal to `e`, keeping the others in order. -/
def arrayRemoveOne (emails : List GeneratedEmail) (e : GeneratedEmail) : List GeneratedEmail :=
  emails.filter (fun x => x != e)

/-- `save_email` : ensure the user's document exists, then apply the
array-union update to its `emails` field. -/
def save_email (s : Store) (u : String) (e : GeneratedEmail) : Store :=
  setDoc (ensure_user_doc s u) u (arrayUnionOne (getEmails (ensure_user_doc s u) u) e)

/-- `remove_email` : ensure the user's document exists, then apply the
array-removal update to its `emails` field. -/
def remove_email (s : Store) (u : String) (e : GeneratedEmail) : Store :=
  setDoc (ensure_user_doc s u) u (arrayRemoveOne (getEmails (ensure_user_doc s u) u) e)

/-- Reading back a freshly written document yields what was written. -/
theorem getDoc_setDoc_self (s : Store) (u : String) (v : List GeneratedEmail) :
    getDoc (setDoc s u v) u = some v := by
  induction s with
  | nil => simp [setDoc, getDoc]
  | cons p rest ih =>
    obtain ⟨k, w⟩ := p
    by_cases hk : k = u
    · simp [setDoc, getDoc, hk]
    · simp [setDoc, getDoc, hk, ih]

/-- Ensuring the document exists does not change the visible `emails`
sequence. -/
theorem getEmails_ensure (s : Store) (u : String) :
    getEmails (ensure_user_doc s u) u = getEmails s u := by
  unfold ensure_user_doc
  cases h : getDoc s u with
  | some l => rfl
  | none => simp [getEmails, h, getDoc_setDoc_self]

/-- The `emails` sequence after `save_email` is the array-union of the
previous sequence with the new element. -/
theorem getEmails_save (s : Store) (u : String) (e : GeneratedEmail) :
    getEmails (save_email s u e) u = arrayUnionOne (getEmails s u) e := by
  unfold save_email
  rw [getEmails, getDoc_setDoc_self, Option.getD_some, getEmails_ensure]

/-- The `emails` sequence after `remove_email` is the array-removal of the
element from the previous sequence. -/
theorem getEmails_remove (s : Store) (u : String) (e : GeneratedEmail) :
    getEmails (remove_email s u e) u = arrayRemoveOne (getEmails s u) e := by
  unfold remove_email
  rw [getEmails, getDoc_setDoc_self, Option.getD_some, getEmails_ensure]

/-- C5: `save_email` leaves the stored sequence unchanged when a structurally
equal element already exists and appends the element at the end otherwise;
saving again after saving changes nothing, and two saves of the same object
into an initially empty store leave exactly one stored copy. -/
theorem save_email_dedup (s : Store) (u : String) (e : GeneratedEmail) :
    getEmails (save_email s u e) u =
      (if e ∈ getEmails s u then getEmails s u else getEmails s u ++ [e]) ∧
    getEmails (save_email (save_email s u e) u e) u = getEmails (save_email s u e) u ∧
    (getEmails (save_email (save_email ([] : Store) u e) u e) u).count e = 1 := by
  refine ⟨getEmails_save s u e, ?_, ?_⟩
  · rw [getEmails_save, getEmails_save]
    unfold arrayUnionOne
    by_cases hm : e ∈ getEmails s u
    · simp [hm]
    · simp [hm]
  · rw [getEmails_save, getEmails_save]
    have h0 : getEmails ([] : Store) u = [] := rfl
    rw [h0]
    simp [arrayUnionOne]

/-- C6: `remove_email` removes every stored element structurally equal to the
given one, keeps the remaining elements in their previous relative order (the
result is a sublist of the previous sequence and the multiplicity of every
other element is unchanged), and is a no-op when no stored element matches
exactly. -/
theorem remove_email_exact (s : Store) (u : String) (e : GeneratedEmail) :
    e ∉ getEmails (remove_email s u e) u ∧
    List.Sublist (getEmails (remove_email s u e) u) (getEmails s u) ∧
    (∀ x : GeneratedEmail, x ≠ e →
      (getEmails (remove_email s u e) u).count x = (getEmails s u).count x) ∧
    (e ∉ getEmails s u → getEmails (remove_email s u e) u = getEmails s u) := by
  rw [getEmails_remove]
  unfold arrayRemoveOne
  refine ⟨?_, ?_, ?_, ?_⟩
  · simp [List.mem_filter]
  · exact List.filter_sublist _
  · intro x hx
    rw [List.count_filter]
    simp [hx]
  · intro hm
    apply List.filter_eq_self.mpr
    intro a ha
    simp only [bne_iff_ne, ne_eq]
    exact fun hc => hm (hc ▸ ha)

/-- Witness for C6: removing an object whose body differs by one character is
a no-op on the stored count, and the multiplicity of a distinct stored
element is untouched. -/
theorem remove_email_exact_witness :
    (getEmails
        (remove_email [("u", [GeneratedEmail.mk "s" "b1", GeneratedEmail.mk "s" "b2"])]
          "u" (GeneratedEmail.mk "s" "b2"))
        "u").count (GeneratedEmail.mk "s" "b1") =
      (getEmails [("u", [GeneratedEmail.mk "s" "b1", GeneratedEmail.mk "s" "b2"])] "u").count
        (GeneratedEmail.mk "s" "b1") ∧
    getEmails
        (remove_email [("u", [GeneratedEmail.mk "s" "b1"])] "u" (GeneratedEmail.mk "s" "b2"))
        "u" =
      getEmails [("u", [GeneratedEmail.mk "s" "b1"])] "u" :=
  ⟨(remove_email_exact [("u", [GeneratedEmail.mk "s" "b1", GeneratedEmail.mk "s" "b2"])]
      "u" (GeneratedEmail.mk "s" "b2")).2.2.1 (GeneratedEmail.mk "s" "b1") (by decide),
   (remove_email_exact [("u", [GeneratedEmail.mk "s" "b1"])]
      "u" (GeneratedEmail.mk "s" "b2")).2.2.2 (by decide)⟩

/-! ## Prompt builder (the email-generation f-string, app.py lines 277–297) -/

/-- String append is associative. -/
theorem strAppend_assoc (a b c : String) : a ++ b ++ c = a ++ (b ++ c) :=
  str_ext (by simp [String.data_append])

/-- The empty string is a left identity of append. -/
theorem strEmpty_append (s : String) : "" ++ s = s :=
  str_ext (by simp [String.data_append])

/-- The empty string is a right identity of append. -/
theorem strAppend_empty (s : String) : s ++ "" = s :=
  str_ext (by simp [String.data_append])

/-- Concatenation of a list of strings, in order — the meaning of an
f-string template as the concatenation of its literal and spliced pieces. -/
def strConcat : List String → String
  | [] => ""
  | p :: ps => p ++ strConcat ps

/-- Concatenation distributes over list append. -/
theorem strConcat_append (xs ys : List String) :
    strConcat (xs ++ ys) = strConcat xs ++ strConcat ys := by
  induction xs with
  | nil => simp [strConcat, strEmpty_append]
  | cons p ps ih => simp [strConcat, ih, strAppend_assoc]

/-- Every piece of a concatenation is contained in it. -/
theorem containsS_join (parts : List String) (seg : String) (h : seg ∈ parts) :
    containsL (strConcat parts).data seg.data = true := by
  induction parts with
  | nil => cases h
  | cons p ps ih =>
    rcases List.mem_cons.mp h with rfl | h2
    · simp only [strConcat, String.data_append]
      exact containsL_here _ _
    · simp only [strConcat, String.data_append]
      exact containsL_skipAll _ _ _ (ih h2)

/-- The structured form fields feeding the email-generation prompt. -/
structure GenerationRequest where
  student_name : String
  recipient : String
  purpose : String
  details : String
  tone : String
  style : String
  formality_level : Nat
  language : String
  cv_text : String

/-- The clause the prompt appends when document text is present: the fixed
label followed by `cv_text[:1000]`, the first 1000 characters of the
extracted text. -/
def cvClause (t : String) : String :=
  "The student has attached their CV. Relevant CV details: " ++ String.mk (t.data.take 1000)

/-- The pieces of the f-string up to and including the `Language` line: the
fixed header, then each labelled field followed by the newline-and-indent
separator of the template. -/
def promptFieldParts (r : GenerationRequest) : List String :=
  ["\n            You are an AI assistant that generates professional emails for students and early-career professionals.\n\n            Generate an email with:\n            - Subject line\n            - Body text\n\n            ",
   "Student Name: " ++ r.student_name, "\n            ",
   "Recipient: " ++ r.recipient, "\n            ",
   "Purpose: " ++ r.purpose, "\n            ",
   "Additional Context: " ++ r.details, "\n            ",
   "Tone: " ++ r.tone, "\n            ",
   "Writing Style: " ++ r.style, "\n            ",
   "Formality Level: " ++ toString r.formality_level ++ "/100", "\n            ",
   "Language: " ++ r.language, "\n            "]

/-- The fixed tail of the template after the optional CV clause. -/
def promptPost : String :=
  "\n\n            Format output as:\n            Subject: ...\n            Body: ...\n            "

/-- All pieces of the f-string: the field pieces, then the CV clause when
`cv_text` is truthy (non-empty) and the empty splice otherwise, then the
fixed tail. -/
def emailPromptParts (r : GenerationRequest) : List String :=
  promptFieldParts r ++ [if r.cv_text = "" then "" else cvClause r.cv_text, promptPost]

/-- The email-generation prompt string. -/
def emailPrompt (r : GenerationRequest) : String :=
  strConcat (emailPromptParts r)

/-- C8: the prompt contains every labelled form field (with the formality
level rendered as `X/100`); the CV clause is appended exactly when the
extracted document text is non-empty; and the clause carries the first 1000
characters of that text at most (a leading segment of the text of length at
most 1000). -/
theorem prompt_contract (r : GenerationRequest) :
    (∀ seg ∈ [
        "Student Name: " ++ r.student_name,
        "Recipient: " ++ r.recipient,
        "Purpose: " ++ r.purpose,
        "Additional Context: " ++ r.details,
        "Tone: " ++ r.tone,
        "Writing Style: " ++ r.style,
        "Formality Level: " ++ toString r.formality_level ++ "/100",
        "Language: " ++ r.language],
      containsL (emailPrompt r).data seg.data = true) ∧
    (r.cv_text = "" →
      emailPrompt r = strConcat (promptFieldParts r) ++ promptPost) ∧
    (r.cv_text ≠ "" →
      emailPrompt r = strConcat (promptFieldParts r) ++ cvClause r.cv_text ++ promptPost ∧
      containsL (emailPrompt r).data (cvClause r.cv_text).data = true) ∧
    (cvClause r.cv_text).data =
      "The student has attached their CV. Relevant CV details: ".data ++
        r.cv_text.data.take 1000 ∧
    (r.cv_text.data.take 1000).length ≤ 1000 ∧
    r.cv_text.data.take 1000 ++ r.cv_text.data.drop 1000 = r.cv_text.data := by
  refine ⟨?_, ?_, ?_, ?_, ?_, ?_⟩
  · intro seg hseg
    apply containsS_join
    fin_cases hseg <;> simp [emailPromptParts, promptFieldParts]
  · intro h
    rw [emailPrompt, emailPromptParts, if_pos h, strConcat_append]
    congr 1
  · intro h
    have hform : emailPrompt r =
        strConcat (promptFieldParts r) ++ cvClause r.cv_text ++ promptPost := by
      rw [emailPrompt, emailPromptParts, if_neg h, strConcat_append, strAppend_assoc]
      congr 1
    refine ⟨hform, ?_⟩
    apply containsS_join
    simp [emailPromptParts, if_neg h]
  · simp [cvClause, String.data_append]
  · rw [List.length_take]
    exact min_le_left _ _
  · exact List.take_append_drop _ _

/-- A concrete request used to witness the prompt contract. -/
def sampleRequest : GenerationRequest :=
  ⟨"Ali", "Professor Khan", "Job Application", "please consider me", "Polite",
   "Creative", 70, "English", "worked on compilers"⟩

/-- Witness for C8: on a concrete request with non-empty document text, the
prompt contains the labelled language field and the CV clause. -/
theorem prompt_contract_witness :
    containsL (emailPrompt sampleRequest).data
      ("Language: " ++ sampleRequest.language).data = true ∧
    containsL (emailPrompt sampleRequest).data
      (cvClause sampleRequest.cv_text).data = true :=
  ⟨(prompt_contract sampleRequest).1 _ (by simp),
   ((prompt_contract sampleRequest).2.2.1 (by decide)).2⟩

/-! ## Download link (`download_txt`, app.py lines 121–124) with an
executable base64 model -/

/-- The standard base64 alphabet used by `base64.b64encode`. -/
def b64Alphabet : List Char :=
  "ABCDEFGHIJKLMNOPQRSTUVWXYZabcdefghijklmnopqrstuvwxyz0123456789+/".data

/-- The alphabet character of a 6-bit value. -/
def b64Char (n : Nat) : Char :=
  b64Alphabet.getD n 'A'

/-- The 6-bit value of an alphabet character (the decoder's table). -/
def b64Val (c : Char) : Nat :=
  b64Alphabet.indexOf c

/-- Base64-encode a byte sequence: three bytes become four alphabet
characters; a final group of one or two bytes is padded with `=`. -/
def b64EncodeChunks : List Nat → List Char
  | [] => []
  | [a] => [b64Char (a / 4), b64Char (a % 4 * 16), '=', '=']
  | [a, b] => [b64Char (a / 4), b64Char (a % 4 * 16 + b / 16), b64Char (b % 16 * 4), '=']
  | a :: b :: c :: rest =>
    b64Char (a / 4) :: b64Char (a % 4 * 16 + b / 16) :: b64Char (b % 16 * 4 + c / 64) ::
      b64Char (c % 64) :: b64EncodeChunks rest

/-- Base64-decode: each group of four characters yields three bytes, or one
or two bytes when the group carries `=` padding. -/
def b64DecodeChunks : List Char → List Nat
  | c1 :: c2 :: c3 :: c4 :: rest =>
    if c3 = '=' then [b64Val c1 * 4 + b64Val c2 / 16]
    else if c4 = '=' then
      [b64Val c1 * 4 + b64Val c2 / 16, b64Val c2 % 16 * 16 + b64Val c3 / 4]
    else
      (b64Val c1 * 4 + b64Val c2 / 16) ::
      (b64Val c2 % 16 * 16 + b64Val c3 / 4) ::
      (b64Val c3 % 4 * 64 + b64Val c4) :: b64DecodeChunks rest
  | _ => []

/-- Decoding inverts encoding on every 6-bit value. -/
theorem b64Val_b64Char : ∀ n, n < 64 → b64Val (b64Char n) = n := by
  decide

/-- No 6-bit value encodes to the padding character. -/
theorem b64Char_ne_pad : ∀ n, n < 64 → b64Char n ≠ '=' := by
  decide

/-- Base64 decoding inverts base64 encoding on byte sequences. -/
theorem b64_roundtrip : ∀ bs : List Nat, (∀ b ∈ bs, b < 256) →
    b64DecodeChunks (b64EncodeChunks bs) = bs
  | [], _ => rfl
  | [a], h => by
    have ha : a < 256 := h a (by simp)
    simp only [b64EncodeChunks, b64DecodeChunks, if_true]
    rw [b64Val_b64Char _ (by omega), b64Val_b64Char _ (by omega)]
    simp only [List.cons.injEq, and_true]
    omega
  | [a, b], h => by
    have ha : a < 256 := h a (by simp)
    have hb : b < 256 := h b (by simp)
    simp only [b64EncodeChunks, b64DecodeChunks]
    rw [if_neg (b64Char_ne_pad _ (by omega))]
    simp only [if_true]
    rw [b64Val_b64Char _ (by omega), b64Val_b64Char _ (by omega),
      b64Val_b64Char _ (by omega)]
    simp only [List.cons.injEq, and_true]
    exact ⟨by omega, by omega⟩
  | a :: b :: c :: rest, h => by
    have ha : a < 256 := h a (by simp)
    have hb : b < 256 := h b (by simp)
    have hc : c < 256 := h c (by simp)
    have ih := b64_roundtrip rest (fun x hx => h x (by simp [hx]))
    simp only [b64EncodeChunks, b64DecodeChunks]
    rw [if_neg (b64Char_ne_pad _ (by omega)), if_neg (b64Char_ne_pad _ (by omega))]
    rw [b64Val_b64Char _ (by omega), b64Val_b64Char _ (by omega),
      b64Val_b64Char _ (by omega), b64Val_b64Char _ (by omega)]
    rw [ih]
    simp only [List.cons.injEq, and_true]
    exact ⟨by omega, by omega, by omega⟩

/-- The bytes of a string, as Python `content.encode()` produces them
(UTF-8). -/
def strBytes (s : String) : List Nat :=
  s.toUTF8.data.toList.map UInt8.toNat

/-- Every byte of an encoded string is below 256. -/
theorem strBytes_lt (s : String) : ∀ x ∈ strBytes s, x < 256 := by
  intro x hx
  rcases List.mem_map.mp hx with ⟨u, _, rfl⟩
  exact u.toBitVec.isLt

/-- The plain-text content of the download: `"Subject: " + subject + "\n\n"
+ body`. -/
def download_content (subject body : String) : String :=
  "Subject: " ++ subject ++ "\n\n" ++ body

/-- `download_txt` : the anchor tag embedding the base64 encoding of the
content as a data URL. -/
def download_txt (subject body : String) : String :=
  "<a href=\"data:file/txt;base64," ++
    String.mk (b64EncodeChunks (strBytes (download_content subject body))) ++
    "\" download=\"email.txt\">💾 Download as TXT</a>"

example : String.mk (b64EncodeChunks (strBytes "abc")) = "YWJj" := by decide

example : String.mk (b64EncodeChunks (strBytes "ab")) = "YWI=" := by decide

example : String.mk (b64EncodeChunks (strBytes (download_content "A" "B"))) =
    "U3ViamVjdDogQQoKQg==" := by decide

/-- C9: the download link embeds exactly the base64 payload of the content
template, and that payload base64-decodes byte-exactly to the UTF-8 bytes of
`"Subject: " + subject + "\n\n" + body`. -/
theorem download_txt_roundtrip (subject body : String) :
    download_txt subject body =
      "<a href=\"data:file/txt;base64," ++
        String.mk (b64EncodeChunks (strBytes (download_content subject body))) ++
        "\" download=\"email.txt\">💾 Download as TXT</a>" ∧
    b64DecodeChunks (b64EncodeChunks (strBytes (download_content subject body))) =
      strBytes (download_content subject body) ∧
    download_content subject body = "Subject: " ++ subject ++ "\n\n" ++ body :=
  ⟨rfl, b64_roundtrip _ (strBytes_lt _), rfl⟩
